import Mathlib

set_option maxRecDepth 100000

/-!
Shallow embedding of `scripts/us_fema/national_risk_index/generate_schema_and_tmcf.py`.

The program turns rows of the FEMA NRI data dictionary into StatVar schema
fragments, TMCF template fragments and a CSV column list.  Python strings are
modelled as Lean `String` (a list of characters); the handful of Python string
primitives the script uses (`split`, `strip`, `replace`, `join`, `count`,
substring `in`, slicing `[:-k]`) are modelled below with the exact Python
semantics, executably, so that concrete rows evaluate by `decide`/`rfl`.
Fallible operations (list indexing `split(...)[i]`, `string[0]` on an empty
string) return `Option`.
-/

/-- Characters treated as whitespace by Python `str.strip()` (CPython's
`Py_UNICODE_ISSPACE`): the ASCII whitespace U+0009-U+000D and U+0020, the
file/group/record/unit separators U+001C-U+001F, the next line U+0085, the
no-break space U+00A0, the Ogham space mark U+1680, the typographic spaces
U+2000-U+200A, the line and paragraph separators U+2028 and U+2029, the
narrow no-break space U+202F, the medium mathematical space U+205F and the
ideographic space U+3000. -/
def pyIsSpace (c : Char) : Bool :=
  c == ' ' || c == '\t' || c == '\n' || c == '\r' || c == '\x0b' || c == '\x0c' ||
  c == '\x1c' || c == '\x1d' || c == '\x1e' || c == '\x1f' ||
  c == '\x85' || c == '\xa0' || c == '\u1680' ||
  (Nat.ble 0x2000 c.toNat && Nat.ble c.toNat 0x200a) ||
  c == '\u2028' || c == '\u2029' || c == '\u202f' || c == '\u205f' || c == '\u3000'

/-- Python `str.strip()` on the character list: drop leading and trailing whitespace. -/
def pyStripC (l : List Char) : List Char :=
  ((l.dropWhile pyIsSpace).reverse.dropWhile pyIsSpace).reverse

/-- Python `str.strip()`. -/
def pyStrip (s : String) : String :=
  String.mk (pyStripC s.data)

/-- Python `is substring` test `needle in hay` (contiguous substring). -/
def pyContainsC (needle : List Char) : List Char → Bool
  | [] => needle.isEmpty
  | c :: rest => needle.isPrefixOf (c :: rest) || pyContainsC needle rest

/-- Python `needle in hay` for strings. -/
def pyContains (needle hay : String) : Bool :=
  pyContainsC needle.data hay.data

/-- Python `s.count(c)` for a single-character needle: number of occurrences. -/
def pyCount (c : Char) (s : String) : Nat :=
  s.data.count c

/-- Python `s.split(sep)` core loop, fuelled to stay structurally recursive.
The fuel is an upper bound on the number of characters still to scan; callers
pass `l.length`, which is always sufficient, so the `0, l` fallback is never
reached on those calls. -/
def pySplitAux (sep : List Char) : Nat → List Char → List (List Char)
  | _, [] => [[]]
  | 0, l => [l]
  | fuel + 1, c :: rest =>
    if sep.isPrefixOf (c :: rest) then
      [] :: pySplitAux sep fuel (List.drop (sep.length - 1) rest)
    else
      match pySplitAux sep fuel rest with
      | [] => [[c]]
      | g :: gs => (c :: g) :: gs

/-- Python `s.split(sep)` on character lists (sep non-empty at every call site). -/
def pySplitC (sep l : List Char) : List (List Char) :=
  pySplitAux sep l.length l

/-- Python `s.split(sep)` for a non-empty separator: keeps empty pieces,
scans left to right, non-overlapping. -/
def pySplit (sep s : String) : List String :=
  (pySplitC sep.data s.data).map String.mk

/-- Python `sep.join(pieces)` on character lists. -/
def pyJoinC (sep : List Char) : List (List Char) → List Char
  | [] => []
  | [x] => x
  | x :: xs => x ++ sep ++ pyJoinC sep xs

/-- Python `sep.join(pieces)`. -/
def pyJoin (sep : String) (l : List String) : String :=
  String.mk (pyJoinC sep.data (l.map String.data))

/-- Python `s[:-k]`.  Note the Python quirk: for `k = 0` the slice `[:-0]` is
`[:0]`, i.e. the empty string. -/
def pySliceDropRight (s : String) (k : Nat) : String :=
  if k = 0 then "" else String.mk (s.data.take (s.data.length - k))

/-- One row of `NRIDataDictionary.csv` as the script reads it: the columns
`Field Name`, `Field Alias`, `Relevant Layer` and the loader-derived
`Version ISO8601`. -/
structure Row where
  fieldName : String
  fieldAlias : String
  relevantLayer : String
  versionISO : String
deriving DecidableEq

/-- The extracted-properties record (the Python dict built by
`extract_properties_from_row`).  Composite rows leave `hazard_type`,
`measurement_qualifier` and `impacted_thing` empty. -/
structure Props where
  hazard_type : String
  measured_property : String
  measurement_qualifier : String
  impacted_thing : String
  unit : String
  is_composite : Bool
deriving DecidableEq

/-- `COMPOSITE_ROW_LAYERS`. -/
def COMPOSITE_ROW_LAYERS : List String :=
  ["National Risk Index", "Expected Annual Loss", "Social Vulnerability",
   "Community Resilience"]

/-- `EAL_COMPONENTS`. -/
def EAL_COMPONENTS : List String :=
  ["Number of Events", "Annualized Frequency", "Historic Loss Ratio",
   "Exposure"]

/-- `IMPACTED_THING_COMPONENTS`. -/
def IMPACTED_THING_COMPONENTS : List String :=
  ["Building", "Population", "Agriculture"]

/-- `RAW_VALUE_COMPONENTS`. -/
def RAW_VALUE_COMPONENTS : List String :=
  ["Social Vulnerability - Value", "Community Resilience - Value"]

/-- `NON_SCORE_RELATIVE_MEASURES`. -/
def NON_SCORE_RELATIVE_MEASURES : List String :=
  ["Rating", "Percentile"]

/-- `DATACOMMONS_ALIASES` as a lookup function on the canonicalized key. -/
def DATACOMMONS_ALIASES (key : String) : Option String :=
  if key = "Score" then some "FemaNationalRiskScore"
  else if key = "SocialVulnerability" then some "femaSocialVulnerability"
  else if key = "CommunityResilience" then some "femaCommunityResilience"
  else if key = "HazardTypeRiskIndex" then some "femaNaturalHazardRiskIndex"
  else if key = "NationalRiskIndex" then some "femaNaturalHazardRiskIndex"
  else if key = "ExpectedAnnualLoss" then some "expectedLoss"
  else none

/-- `prune_list_dupes`: the Python loop `for el in l: if el not in k: k.append(el)`. -/
def prune_list_dupes (l : List String) : List String :=
  l.foldl (fun k el => if el ∈ k then k else k ++ [el]) []

/-- `capitalize_first`: Python `string[0].upper() + string[1:]`; raises
`IndexError` on the empty string, modelled as `none`. -/
def capitalize_first (string : String) : Option String :=
  match string.data with
  | [] => none
  | c :: rest => some (String.mk (c.toUpper :: rest))

/-- `drop_spaces`: Python `string.replace(" ", "")`. -/
def drop_spaces (string : String) : String :=
  String.mk (string.data.filter (fun c => !(c == ' ')))

/-- `apply_datacommon_alias`: canonicalize the key with
`string.strip().replace(" ", "")` and look it up; fall through to the raw
input string when no alias is found. -/
def apply_datacommon_alias (string : String) : String :=
  let key := drop_spaces (pyStrip string)
  match DATACOMMONS_ALIASES key with
  | some a => a
  | none => string

/-- `get_nth_dash_from_field_alias`: `row["Field Alias"].split(" - ")[i]`,
with the possible `IndexError` modelled as `none`. -/
def get_nth_dash_from_field_alias (row : Row) (i : Nat) : Option String :=
  (pySplit " - " row.fieldAlias).get? i

/-- `is_composite_row`: membership of `Relevant Layer` in `COMPOSITE_ROW_LAYERS`. -/
def is_composite_row (row : Row) : Bool :=
  COMPOSITE_ROW_LAYERS.contains row.relevantLayer

/-- `normalize_unit_for_measured_property`. -/
def normalize_unit_for_measured_property (measured_property unit : String) :
    String × String :=
  if unit ≠ "FemaNationalRiskScore" then
    if measured_property = "expectedLoss" then (measured_property, "dcid:USDollar")
    else (measured_property, "")
  else (measured_property, unit)

/-- `extract_properties_from_composite_row`. -/
def extract_properties_from_composite_row (row : Row) : Option Props := do
  let seg0 ← get_nth_dash_from_field_alias row 0
  let seg1 ← get_nth_dash_from_field_alias row 1
  let measured_property := apply_datacommon_alias (drop_spaces seg0)
  let unit := apply_datacommon_alias (drop_spaces seg1)
  let mu := normalize_unit_for_measured_property measured_property unit
  pure { hazard_type := "", measured_property := mu.1, measurement_qualifier := "",
         impacted_thing := "", unit := mu.2, is_composite := true }

/-- `extract_properties_from_ind_hazard_row`. -/
def extract_properties_from_ind_hazard_row (row : Row) : Option Props := do
  let seg0 ← get_nth_dash_from_field_alias row 0
  let hazard_type := drop_spaces seg0 ++ "Event"
  let hazard_type := if hazard_type = "CoastalFloodingEvent" then "CoastalFloodEvent"
    else hazard_type
  let seg1 ← get_nth_dash_from_field_alias row 1
  let measured_property := apply_datacommon_alias seg1
  let unit : String := ""
  let mu :=
    if pyContains "Score" measured_property || pyContains "Rating" measured_property then
      let u := (pySplit " " measured_property).getLastD ""
      (apply_datacommon_alias (pySliceDropRight measured_property u.length),
       apply_datacommon_alias u)
    else (measured_property, unit)
  let mu := normalize_unit_for_measured_property mu.1 mu.2
  let measured_property := mu.1
  let unit := mu.2
  let measurement_qualifier := if measured_property = "expectedLoss" then "Annual" else ""
  let measured_property := drop_spaces measured_property
  let impacted_thing ←
    if pyCount '-' row.fieldAlias > 1 then do
      let seg2 ← get_nth_dash_from_field_alias row 2
      let it := drop_spaces seg2
      pure (if it = "Total" then "" else it)
    else pure ""
  let impacted_thing := if pyContains "Population" impacted_thing then "Person"
    else impacted_thing
  pure { hazard_type := hazard_type, measured_property := measured_property,
         measurement_qualifier := measurement_qualifier,
         impacted_thing := impacted_thing, unit := unit, is_composite := false }

/-- `extract_properties_from_row`: dispatch on the composite classifier. -/
def extract_properties_from_row (row : Row) : Option Props :=
  if is_composite_row row then extract_properties_from_composite_row row
  else extract_properties_from_ind_hazard_row row

/-- `add_spaces_before_capital_letters`: the Python comprehension
`"".join([" " + char if char.isupper() else char.strip() for char in text]).strip()`.
Note that `char.strip()` erases whitespace characters. -/
def add_spaces_before_capital_letters (text : String) : String :=
  pyStrip (String.mk (text.data.flatMap (fun char =>
    if char.isUpper then [' ', char]
    else if pyIsSpace char then [] else [char])))

/-- `format_human_readable_name_from_properties`. -/
def format_human_readable_name_from_properties (properties : Props)
    (is_composite : Bool) : String :=
  let measured_property := properties.measured_property
  let statvar_name :=
    if measured_property = "expectedLoss" then
      "Annual Expected Loss from Natural Hazard Impact"
    else if measured_property = "femaNaturalHazardRiskIndex" then
      "FEMA National Risk Index for Natural Hazard Impact"
    else
      let m_prop_with_spaces := add_spaces_before_capital_letters measured_property
      let m_prop_without_fema := pyJoin " " ((pySplit " " m_prop_with_spaces).drop 1)
      "FEMA " ++ m_prop_without_fema ++ " to Natural Hazard Impact"
  if !is_composite then
    let hazard_type_with_spaces := add_spaces_before_capital_letters properties.hazard_type
    let hazard_type_no_event := pyJoin " " ((pySplit " " hazard_type_with_spaces).dropLast)
    statvar_name ++ ": " ++ hazard_type_no_event
  else statvar_name

/-- `COMPOSITE_MCF_FORMAT` instantiated (the `{...}` holes become arguments). -/
def COMPOSITE_MCF_FORMAT (node_dcid m_prop statvar_name : String) : String :=
  "Node: dcid:" ++ node_dcid ++
  "\ntypeOf: dcs:StatisticalVariable\nstatType: dcs:measuredValue\npopulationType: dcs:NaturalHazardImpact\nmeasuredProperty: dcs:" ++
  m_prop ++ "\nname: \"" ++ statvar_name ++ "\"\n"

/-- `HAZARD_MCF_FORMAT_BASE` instantiated. -/
def HAZARD_MCF_FORMAT_BASE (node_dcid haz_type m_prop statvar_name : String) : String :=
  "Node: dcid:" ++ node_dcid ++
  "\ntypeOf: dcs:StatisticalVariable\npopulationType: dcs:NaturalHazardImpact\nstatType: dcs:measuredValue\nnaturalHazardType: dcs:" ++
  haz_type ++ "\nmeasuredProperty: dcs:" ++ m_prop ++ "\nname: \"" ++
  statvar_name ++ "\"\n"

/-- `TMCF_FORMAT` instantiated. -/
def TMCF_FORMAT (index : Nat) (statvar_dcid obs_date field_name : String) : String :=
  "\nNode: E:FEMA_NRI->E" ++ toString index ++
  "\ntypeOf: dcs:StatVarObservation\nvariableMeasured: dcs:" ++ statvar_dcid ++
  "\nobservationAbout: C:FEMA_NRI_Counties->DCID_GeoID\nobservationDate: \"" ++
  obs_date ++ "\"\nvalue: C:FEMA_NRI_Counties->" ++ field_name ++ "\n"

/-- `format_composite_field_properties_to_schema`; `capitalize_first` on an
empty property would raise in Python, hence `Option`. -/
def format_composite_field_properties_to_schema (properties : Props) :
    Option (String × String) := do
  let measured_property := properties.measured_property
  let capMp ← capitalize_first measured_property
  let dcid := if measured_property = "expectedLoss" then
      "Annual_" ++ capMp ++ "_NaturalHazardImpact"
    else capMp ++ "_NaturalHazardImpact"
  let statvar_name := format_human_readable_name_from_properties properties true
  let formatted := COMPOSITE_MCF_FORMAT dcid measured_property statvar_name
  let formatted := if measured_property = "expectedLoss" then
      formatted ++ "measurementQualifier: dcid:Annual\n"
    else formatted
  pure (formatted, dcid)

/-- `format_ind_hazard_field_properties_to_schema`: build the dcid component
list, drop empties, capitalize, join with underscores. -/
def format_ind_hazard_field_properties_to_schema (properties : Props) :
    Option (String × String) := do
  let hazard_type := properties.hazard_type
  let measured_property := properties.measured_property
  let measurement_qualifier := properties.measurement_qualifier
  let impacted_thing := properties.impacted_thing
  let dcid_list := [measurement_qualifier, measured_property, "NaturalHazardImpact",
                    hazard_type, impacted_thing]
  let dcid_list := dcid_list.filter (fun element => element ≠ "")
  let dcid_list ← dcid_list.mapM capitalize_first
  let dcid := pyJoin "_" dcid_list
  let statvar_name := format_human_readable_name_from_properties properties false
  let formatted := HAZARD_MCF_FORMAT_BASE dcid hazard_type
    (drop_spaces measured_property) statvar_name
  let formatted := if impacted_thing ≠ "" then
      formatted ++ "impactedThing: dcid:" ++ impacted_thing ++ "\n"
    else formatted
  let formatted := if measurement_qualifier ≠ "" then
      formatted ++ "measurementQualifier: dcid:" ++ measurement_qualifier ++ "\n"
    else formatted
  pure (formatted, dcid)

/-- `tmcf_from_row`. -/
def tmcf_from_row (row : Row) (index : Nat) (statvar_dcid unit : String) : String :=
  let tmcf := TMCF_FORMAT index statvar_dcid row.versionISO row.fieldName
  if unit ≠ "" then tmcf ++ "unit: " ++ unit ++ "\n" else tmcf

/-- `schema_and_tmcf_from_properties` (the Python dict carries the source row
under the `"row"` key; here the row is passed alongside). -/
def schema_and_tmcf_from_properties (properties : Props) (row : Row)
    (index : Nat) : Option (String × String) := do
  let sd ← if properties.is_composite then
      format_composite_field_properties_to_schema properties
    else format_ind_hazard_field_properties_to_schema properties
  pure (sd.1, tmcf_from_row row index sd.2 properties.unit)

/-- The configured skip vocabulary: all four feature flags are `True` in the
script, so all four component lists are concatenated. -/
def field_alias_strings_to_skip : List String :=
  EAL_COMPONENTS ++ IMPACTED_THING_COMPONENTS ++ NON_SCORE_RELATIVE_MEASURES ++
    RAW_VALUE_COMPONENTS

/-- The per-row skip test of `generate_schema_and_tmcf_from_file`:
`any(comp in row["Field Alias"] for comp in field_alias_strings_to_skip)`. -/
def should_skip_component (row : Row) : Bool :=
  field_alias_strings_to_skip.any (fun comp => pyContains comp row.fieldAlias)

/-- The pure core of `generate_schema_and_tmcf_from_file` after loading:
filter skipped rows, extract properties, format schema/TMCF per retained row
(indexed by position), collect column names, then prune duplicates in each of
the three lists independently. -/
def generate_outputs (rows : List Row) :
    Option (List String × List String × List String) := do
  let kept := rows.filter (fun row => !(should_skip_component row))
  let extracted ← kept.mapM (fun row => do
    let p ← extract_properties_from_row row
    pure (p, row))
  let triples ← extracted.enum.mapM (fun ip => do
    let st ← schema_and_tmcf_from_properties ip.2.1 ip.2.2 ip.1
    pure (st.1, st.2, ip.2.2.fieldName))
  let schemas := prune_list_dupes (triples.map (fun t => t.1))
  let tmcfs := prune_list_dupes (triples.map (fun t => t.2.1))
  let csv_columns := prune_list_dupes (triples.map (fun t => t.2.2))
  pure (schemas, tmcfs, csv_columns)

/-! ### Specification-side definitions and concrete test rows -/

/-- Spec-side deduplication (refinement target for the claim on
`prune_list_dupes`): keep the head, then deduplicate the tail with later
duplicates of the head removed — exactly "the first occurrence of each
distinct element, in first-seen order". -/
def first_occurrences : List String → List String
  | [] => []
  | x :: xs => x :: (first_occurrences xs).filter (fun y => y ≠ x)

/-- Spec-side capital spacing, per character: an uppercase letter becomes
space-then-letter, anything else stays. -/
def spec_capital_block (d : Char) : List Char :=
  if d.isUpper then [' ', d] else [d]

/-- Spec-side capital spacing on a character list: keep the head character,
insert a space before every later uppercase letter. -/
def spec_space_capitals_chars : List Char → List Char
  | [] => []
  | c :: rest => c :: rest.flatMap spec_capital_block

/-- Spec-side capital spacing: insert a space before every internal (i.e.
non-leading) uppercase letter. -/
def spec_space_internal_capitals (s : String) : String :=
  String.mk (spec_space_capitals_chars s.data)

/-- Remove a trailing `"Event"` suffix when present (spec-side helper). -/
def remove_event_suffix (s : String) : String :=
  if "Event".data.isSuffixOf s.data then
    String.mk (s.data.take (s.data.length - 5))
  else s

/-- Spec-side display name, following the specification text: two fixed
phrases, otherwise "FEMA {rest} to Natural Hazard Impact" where {rest} is the
property token with a space before every internal capital and the first word
dropped; for non-composite rows append ": {HazardType}" with the "Event"
suffix removed and capital spacing applied. -/
def spec_display_name (properties : Props) (is_composite : Bool) : String :=
  let measured_property := properties.measured_property
  let base :=
    if measured_property = "expectedLoss" then
      "Annual Expected Loss from Natural Hazard Impact"
    else if measured_property = "femaNaturalHazardRiskIndex" then
      "FEMA National Risk Index for Natural Hazard Impact"
    else
      "FEMA " ++
        pyJoin " " ((pySplit " " (spec_space_internal_capitals measured_property)).drop 1) ++
        " to Natural Hazard Impact"
  if is_composite then base
  else base ++ ": " ++ spec_space_internal_capitals (remove_event_suffix properties.hazard_type)

/-- `true` iff the character list contains two consecutive underscores. -/
def hasDoubleUnderscore : List Char → Bool
  | [] => false
  | [_] => false
  | a :: b :: rest => (a == '_' && b == '_') || hasDoubleUnderscore (b :: rest)

/-- The string contains no underscore character. -/
def noUnderscore (s : String) : Prop := '_' ∉ s.data

/-- Total version of `capitalize_first` (proof helper; agrees with
`capitalize_first` on non-empty strings). -/
def capitalizeF (s : String) : String :=
  match s.data with
  | [] => ""
  | c :: rest => String.mk (c.toUpper :: rest)

/-- The part of dash-segment 1 that `extract_properties_from_ind_hazard_row`
turns into `measured_property`: when the aliased segment contains "Score" or
"Rating" the trailing space-delimited token is removed first (with the Python
`[:-len(unit)]` slice), otherwise the segment itself. -/
def score_rating_remainder (seg1 : String) : String :=
  let m0 := apply_datacommon_alias seg1
  if pyContains "Score" m0 || pyContains "Rating" m0 then
    pySliceDropRight m0 ((pySplit " " m0).getLastD "").length
  else seg1

/-- The candidate (measured_property, unit) pair produced from dash-segment 1
before unit normalization (proof helper naming the corresponding subterm of
`extract_properties_from_ind_hazard_row`). -/
def ind_mu0 (seg1 : String) : String × String :=
  let measured_property := apply_datacommon_alias seg1
  if pyContains "Score" measured_property || pyContains "Rating" measured_property then
    let u := (pySplit " " measured_property).getLastD ""
    (apply_datacommon_alias (pySliceDropRight measured_property u.length),
     apply_datacommon_alias u)
  else (measured_property, "")

/-- A real data-dictionary row: the avalanche expected-annual-loss score. -/
def rowC1 : Row :=
  { fieldName := "AVLN_EALS", fieldAlias := "Avalanche - Expected Annual Loss Score",
    relevantLayer := "Avalanche", versionISO := "2021-11" }

/-- The properties `rowC1` extracts to. -/
def pC1 : Props :=
  { hazard_type := "AvalancheEvent", measured_property := "expectedLoss",
    measurement_qualifier := "Annual", impacted_thing := "",
    unit := "FemaNationalRiskScore", is_composite := false }

/-- A real data-dictionary row: coastal flooding historic loss ratio for
population. -/
def rowC5 : Row :=
  { fieldName := "CFLD_HLRP",
    fieldAlias := "Coastal Flooding - Historic Loss Ratio - Population",
    relevantLayer := "Coastal Flooding", versionISO := "2021-11" }

/-- The properties `rowC5` extracts to. -/
def pC5 : Props :=
  { hazard_type := "CoastalFloodEvent", measured_property := "HistoricLossRatio",
    measurement_qualifier := "", impacted_thing := "Person", unit := "",
    is_composite := false }

/-- A retained individual-hazard row whose alias segment 1 is exactly
"Score": the whole segment is split off as the unit, leaving an empty
measured property. -/
def rowAvScore : Row :=
  { fieldName := "AVLN_SCORE", fieldAlias := "Avalanche - Score",
    relevantLayer := "Avalanche", versionISO := "2021-11" }

/-- The properties `rowAvScore` extracts to: note the empty `measured_property`. -/
def pAvScore : Props :=
  { hazard_type := "AvalancheEvent", measured_property := "",
    measurement_qualifier := "", impacted_thing := "",
    unit := "FemaNationalRiskScore", is_composite := false }

/-- A row whose measured-property token carries an underscore. -/
def rowUnderscore : Row :=
  { fieldName := "X", fieldAlias := "Av - X_", relevantLayer := "L",
    versionISO := "2021-11" }

/-- The properties `rowUnderscore` extracts to. -/
def pUnderscore : Props :=
  { hazard_type := "AvEvent", measured_property := "X_",
    measurement_qualifier := "", impacted_thing := "", unit := "",
    is_composite := false }

/-- An individual-hazard row whose Field Alias has no " - " separator. -/
def rowNoDash : Row :=
  { fieldName := "X", fieldAlias := "Avalanche", relevantLayer := "L",
    versionISO := "2021-11" }

/-- A composite row whose Field Alias has no " - " separator. -/
def rowNoDashComposite : Row :=
  { fieldName := "X", fieldAlias := "NationalRiskIndex",
    relevantLayer := "National Risk Index", versionISO := "2021-11" }

/-- Two rows identical except for their source column name. -/
def rowColA : Row :=
  { fieldName := "COL_A", fieldAlias := "Avalanche - Expected Annual Loss Score",
    relevantLayer := "Avalanche", versionISO := "2021-11" }

/-- Second of the two rows identical except for their source column name. -/
def rowColB : Row :=
  { fieldName := "COL_B", fieldAlias := "Avalanche - Expected Annual Loss Score",
    relevantLayer := "Avalanche", versionISO := "2021-11" }

/-- A composite properties record for the national risk index. -/
def pCompRisk : Props :=
  { hazard_type := "", measured_property := "femaNaturalHazardRiskIndex",
    measurement_qualifier := "", impacted_thing := "",
    unit := "FemaNationalRiskScore", is_composite := true }

/-- A retained row whose hazard segment carries a tab character. -/
def rowTab : Row :=
  { fieldName := "T", fieldAlias := "A\tb - Expected Annual Loss",
    relevantLayer := "L", versionISO := "2021-11" }

/-- The properties `rowTab` extracts to: the hazard type keeps the tab. -/
def pTab : Props :=
  { hazard_type := "A\tbEvent", measured_property := "expectedLoss",
    measurement_qualifier := "Annual", impacted_thing := "", unit := "dcid:USDollar",
    is_composite := false }

/-! ### Deduplication lemmas -/

/-- The `prune_list_dupes` fold, for any accumulator, appends the
first-occurrence sublist of the remaining elements not already seen. -/
theorem prune_foldl_eq (l : List String) : ∀ k : List String,
    l.foldl (fun k el => if el ∈ k then k else k ++ [el]) k =
      k ++ (first_occurrences l).filter (fun y => y ∉ k) := by
  induction l with
  | nil => intro k; simp [first_occurrences]
  | cons x xs ih =>
    intro k
    by_cases hx : x ∈ k
    · rw [List.foldl_cons, if_pos hx, ih k]
      congr 1
      rw [first_occurrences, List.filter_cons]
      have hxk : (decide (x ∉ k)) = false := by simp [hx]
      rw [hxk]
      simp only [Bool.false_eq_true, if_false, List.filter_filter]
      apply List.filter_congr
      intro y _
      by_cases hy : y ∈ k
      · simp [hy]
      · simp [hy]
        rintro rfl; exact hy hx
    · rw [List.foldl_cons, if_neg hx, ih (k ++ [x])]
      rw [first_occurrences, List.filter_cons]
      have hxk : (decide (x ∉ k)) = true := by simp [hx]
      rw [hxk]
      simp only [if_true, List.filter_filter, List.append_assoc, List.singleton_append]
      congr 2
      apply List.filter_congr
      intro y _
      by_cases hy : y ∈ k <;> by_cases hyx : y = x <;>
        simp [hy, hyx, List.mem_append]

/-- `prune_list_dupes` computes exactly the first occurrence of each distinct
element, in first-seen order. -/
theorem prune_list_dupes_eq (l : List String) :
    prune_list_dupes l = first_occurrences l := by
  unfold prune_list_dupes
  rw [prune_foldl_eq]
  simp

/-- `first_occurrences` produces a duplicate-free list. -/
theorem first_occurrences_nodup (l : List String) : (first_occurrences l).Nodup := by
  induction l with
  | nil => simp [first_occurrences]
  | cons x xs ih =>
    rw [first_occurrences, List.nodup_cons]
    constructor
    · intro hmem
      have h := (List.mem_filter.mp hmem).2
      simp at h
    · exact ih.filter _

/-- `first_occurrences` fixes duplicate-free lists. -/
theorem first_occurrences_of_nodup (l : List String) (h : l.Nodup) :
    first_occurrences l = l := by
  induction l with
  | nil => rfl
  | cons x xs ih =>
    rw [List.nodup_cons] at h
    rw [first_occurrences, ih h.2]
    conv_rhs => rw [show x :: xs = x :: xs from rfl]
    congr 1
    apply List.filter_eq_self.mpr
    intro a ha
    simp only [decide_eq_true_eq]
    rintro rfl
    exact h.1 ha

/-! ### Claim theorems: concrete rows and deduplication -/

/-- C1: the individual-hazard row with Field Alias
"Avalanche - Expected Annual Loss Score" extracts to
hazard_type "AvalancheEvent", measured_property "expectedLoss",
unit "FemaNationalRiskScore", measurement_qualifier "Annual", empty
impacted_thing, and its synthesized dcid is
"Annual_ExpectedLoss_NaturalHazardImpact_AvalancheEvent". -/
theorem avalanche_eal_score_extraction :
    is_composite_row rowC1 = false ∧
    extract_properties_from_row rowC1 = some pC1 ∧
    pC1.hazard_type = "AvalancheEvent" ∧
    pC1.measured_property = "expectedLoss" ∧
    pC1.unit = "FemaNationalRiskScore" ∧
    pC1.measurement_qualifier = "Annual" ∧
    pC1.impacted_thing = "" ∧
    (format_ind_hazard_field_properties_to_schema pC1).map Prod.snd =
      some "Annual_ExpectedLoss_NaturalHazardImpact_AvalancheEvent" := by
  decide

/-- C5 counterexample: the row with Field Alias
"Coastal Flooding - Historic Loss Ratio - Population" does NOT pass the skip
filter under the script's configured flags: its alias contains the skip
substrings "Historic Loss Ratio" and "Population". -/
theorem coastal_flooding_row_is_skipped :
    should_skip_component rowC5 = true := by decide

/-- C5 (amended): the coastal-flooding historic-loss-ratio row is skipped by
the configured filter; extraction on the row nevertheless canonicalizes the
hazard spelling to "CoastalFloodEvent" and the impacted thing to "Person". -/
theorem coastal_flooding_extraction :
    should_skip_component rowC5 = true ∧
    is_composite_row rowC5 = false ∧
    extract_properties_from_row rowC5 = some pC5 ∧
    pC5.hazard_type = "CoastalFloodEvent" ∧
    pC5.impacted_thing = "Person" := by decide

/-- C4 counterexample: the retained individual-hazard row with Field Alias
"Avalanche - Score" extracts successfully with an EMPTY measured_property
(the whole segment is split off as the Score unit). -/
theorem measured_property_empty_counterexample :
    should_skip_component rowAvScore = false ∧
    is_composite_row rowAvScore = false ∧
    extract_properties_from_row rowAvScore = some pAvScore ∧
    pAvScore.measured_property = "" := by decide

/-- C8 counterexample: a row whose property token itself carries an
underscore produces a dcid with two consecutive underscores. -/
theorem dcid_double_underscore_counterexample :
    extract_properties_from_row rowUnderscore = some pUnderscore ∧
    (format_ind_hazard_field_properties_to_schema pUnderscore).map Prod.snd =
      some "X__NaturalHazardImpact_AvEvent" ∧
    hasDoubleUnderscore "X__NaturalHazardImpact_AvEvent".data = true := by decide

/-- C10: both extractors unconditionally read dash-segment 1, so a row whose
Field Alias has no " - " separator makes extraction fail (Python IndexError,
modelled as `none`) on both the individual-hazard and the composite path; the
row passes the skip filter, so the failure is reachable in the generation
pipeline, which likewise yields no output. -/
theorem extraction_partial_on_missing_separator :
    should_skip_component rowNoDash = false ∧
    extract_properties_from_ind_hazard_row rowNoDash = none ∧
    extract_properties_from_row rowNoDash = none ∧
    extract_properties_from_composite_row rowNoDashComposite = none ∧
    extract_properties_from_row rowNoDashComposite = none ∧
    generate_outputs [rowNoDash] = none := by decide

/-- C6: `prune_list_dupes` returns exactly the first occurrence of each
distinct element in first-seen order, and the three output sequences are
deduplicated independently: two rows producing byte-identical schema
fragments collapse to one schema entry (1 schema, 2 TMCFs) while their
distinct column names both survive in the column list. -/
theorem prune_keeps_first_occurrences :
    (∀ l : List String, prune_list_dupes l = first_occurrences l) ∧
    (generate_outputs [rowColA, rowColB]).map
      (fun t => (t.1.length, t.2.1.length, t.2.2)) =
      some (1, 2, ["COL_A", "COL_B"]) :=
  ⟨prune_list_dupes_eq, by decide⟩

/-- C7: deduplication is idempotent. -/
theorem prune_list_dupes_idempotent (l : List String) :
    prune_list_dupes (prune_list_dupes l) = prune_list_dupes l := by
  calc prune_list_dupes (prune_list_dupes l)
      = first_occurrences (first_occurrences l) := by
        rw [prune_list_dupes_eq, prune_list_dupes_eq]
    _ = first_occurrences l :=
        first_occurrences_of_nodup _ (first_occurrences_nodup l)
    _ = prune_list_dupes l := (prune_list_dupes_eq l).symm

/-! ### Extraction characterization lemmas and unit/field invariants -/

theorem extract_ind_some_shape (row : Row) (p : Props)
    (h : extract_properties_from_ind_hazard_row row = some p) :
    ∃ s0 s1, get_nth_dash_from_field_alias row 0 = some s0 ∧
      get_nth_dash_from_field_alias row 1 = some s1 ∧
      p.measured_property =
        drop_spaces ((normalize_unit_for_measured_property (ind_mu0 s1).1 (ind_mu0 s1).2).1) ∧
      p.unit = (normalize_unit_for_measured_property (ind_mu0 s1).1 (ind_mu0 s1).2).2 ∧
      ((pyCount '-' row.fieldAlias > 1 ∧ ∃ seg2,
          get_nth_dash_from_field_alias row 2 = some seg2 ∧
          p.impacted_thing =
            (if pyContains "Population"
                (if drop_spaces seg2 = "Total" then "" else drop_spaces seg2) then "Person"
             else (if drop_spaces seg2 = "Total" then "" else drop_spaces seg2))) ∨
       (¬ pyCount '-' row.fieldAlias > 1 ∧ p.impacted_thing = "")) := by
  unfold extract_properties_from_ind_hazard_row at h
  simp only [Option.bind_eq_bind] at h
  cases e0 : get_nth_dash_from_field_alias row 0 with
  | none => rw [e0, Option.none_bind] at h; exact Option.noConfusion h
  | some s0 =>
  rw [e0, Option.some_bind] at h
  cases e1 : get_nth_dash_from_field_alias row 1 with
  | none => rw [e1, Option.none_bind] at h; exact Option.noConfusion h
  | some s1 =>
  rw [e1, Option.some_bind] at h
  refine ⟨s0, s1, rfl, rfl, ?_⟩
  by_cases hc : pyCount '-' row.fieldAlias > 1
  · rw [if_pos hc] at h
    cases e2 : get_nth_dash_from_field_alias row 2 with
    | none =>
      rw [e2] at h
      simp only [Option.none_bind] at h
      exact Option.noConfusion h
    | some seg2 =>
      rw [e2] at h
      simp only [Option.pure_def, Option.some_bind] at h
      have hp := (Option.some.inj h).symm
      subst hp
      exact ⟨rfl, rfl, Or.inl ⟨hc, seg2, rfl, rfl⟩⟩
  · rw [if_neg hc] at h
    simp only [Option.pure_def, Option.some_bind] at h
    have hp := (Option.some.inj h).symm
    subst hp
    exact ⟨rfl, rfl, Or.inr ⟨hc, rfl⟩⟩

theorem extract_comp_some_shape (row : Row) (p : Props)
    (h : extract_properties_from_composite_row row = some p) :
    ∃ s0 s1, get_nth_dash_from_field_alias row 0 = some s0 ∧
      get_nth_dash_from_field_alias row 1 = some s1 ∧
      p.measured_property =
        (normalize_unit_for_measured_property (apply_datacommon_alias (drop_spaces s0))
          (apply_datacommon_alias (drop_spaces s1))).1 ∧
      p.unit =
        (normalize_unit_for_measured_property (apply_datacommon_alias (drop_spaces s0))
          (apply_datacommon_alias (drop_spaces s1))).2 := by
  unfold extract_properties_from_composite_row at h
  simp only [Option.bind_eq_bind] at h
  cases e0 : get_nth_dash_from_field_alias row 0 with
  | none => rw [e0, Option.none_bind] at h; exact Option.noConfusion h
  | some s0 =>
  rw [e0, Option.some_bind] at h
  cases e1 : get_nth_dash_from_field_alias row 1 with
  | none => rw [e1, Option.none_bind] at h; exact Option.noConfusion h
  | some s1 =>
  rw [e1, Option.some_bind] at h
  simp only [Option.pure_def] at h
  have hp := (Option.some.inj h).symm
  subst hp
  exact ⟨s0, s1, rfl, rfl, rfl, rfl⟩

theorem normalize_unit_fst (mp u : String) :
    (normalize_unit_for_measured_property mp u).1 = mp := by
  unfold normalize_unit_for_measured_property
  split_ifs <;> rfl

theorem drop_spaces_idem (s : String) :
    drop_spaces (drop_spaces s) = drop_spaces s := by
  unfold drop_spaces
  simp only [List.filter_filter]
  congr 1
  apply List.filter_congr
  intro a _
  cases h : (a == ' ') <;> simp

theorem DATACOMMONS_ALIASES_value_ne_empty (k v : String)
    (h : DATACOMMONS_ALIASES k = some v) : drop_spaces v ≠ "" := by
  unfold DATACOMMONS_ALIASES at h
  split_ifs at h <;> first
    | exact Option.noConfusion h
    | (cases h; decide)

theorem drop_spaces_apply_alias_ne_empty (s : String) (h : drop_spaces s ≠ "") :
    drop_spaces (apply_datacommon_alias s) ≠ "" := by
  unfold apply_datacommon_alias
  cases hk : DATACOMMONS_ALIASES (drop_spaces (pyStrip s)) with
  | none => simp only [hk]; exact h
  | some v => simp only [hk]; exact DATACOMMONS_ALIASES_value_ne_empty _ v hk

theorem normalize_unit_mem (mp u : String) :
    (normalize_unit_for_measured_property mp u).2 = "FemaNationalRiskScore" ∨
    (normalize_unit_for_measured_property mp u).2 = "dcid:USDollar" ∨
    (normalize_unit_for_measured_property mp u).2 = "" := by
  unfold normalize_unit_for_measured_property
  split_ifs with h1 h2
  · right; left; rfl
  · right; right; rfl
  · left; push_neg at h1; exact h1

theorem normalize_eL_unit (u : String) :
    (normalize_unit_for_measured_property "expectedLoss" u).2 =
      if u = "FemaNationalRiskScore" then "FemaNationalRiskScore" else "dcid:USDollar" := by
  unfold normalize_unit_for_measured_property
  by_cases hu : u = "FemaNationalRiskScore"
  · subst hu; simp
  · simp [hu]

theorem unit_vocabulary_closed :
    (∀ (row : Row) (p : Props), extract_properties_from_row row = some p →
      p.unit = "FemaNationalRiskScore" ∨ p.unit = "dcid:USDollar" ∨ p.unit = "") ∧
    (∀ u : String,
      (normalize_unit_for_measured_property "expectedLoss" u).2 ≠ "" ∧
      (normalize_unit_for_measured_property "expectedLoss" u).2 =
        if u = "FemaNationalRiskScore" then "FemaNationalRiskScore"
        else "dcid:USDollar") := by
  constructor
  · intro row p h
    unfold extract_properties_from_row at h
    split at h
    · obtain ⟨s0, s1, _, _, _, hu⟩ := extract_comp_some_shape row p h
      rw [hu]; exact normalize_unit_mem _ _
    · obtain ⟨s0, s1, _, _, _, hu, _⟩ := extract_ind_some_shape row p h
      rw [hu]; exact normalize_unit_mem _ _
  · intro u
    refine ⟨?_, normalize_eL_unit u⟩
    rw [normalize_eL_unit u]
    split_ifs <;> decide

theorem unit_vocabulary_closed_witness :
    (pC1.unit = "FemaNationalRiskScore" ∨ pC1.unit = "dcid:USDollar" ∨ pC1.unit = "") ∧
    ((normalize_unit_for_measured_property "expectedLoss" "x").2 ≠ "" ∧
     (normalize_unit_for_measured_property "expectedLoss" "x").2 =
       if "x" = "FemaNationalRiskScore" then "FemaNationalRiskScore"
       else "dcid:USDollar") :=
  ⟨unit_vocabulary_closed.1 rowC1 pC1 (by decide), unit_vocabulary_closed.2 "x"⟩

theorem impacted_thing_emptiness :
    (∀ (row : Row) (p : Props), is_composite_row row = false →
      extract_properties_from_row row = some p → p.impacted_thing ≠ "" →
      ∃ seg2, get_nth_dash_from_field_alias row 2 = some seg2 ∧
        drop_spaces seg2 ≠ "Total") ∧
    (∀ (row : Row) (p : Props), is_composite_row row = false →
      pyCount '-' row.fieldAlias = 1 →
      extract_properties_from_row row = some p → p.impacted_thing = "") := by
  constructor
  · intro row p hcomp h hne
    unfold extract_properties_from_row at h
    rw [if_neg (by simp [hcomp])] at h
    obtain ⟨s0, s1, e0, e1, _, _, hdisj⟩ := extract_ind_some_shape row p h
    rcases hdisj with ⟨hc, seg2, e2, himp⟩ | ⟨hc, himp⟩
    · by_cases ht : drop_spaces seg2 = "Total"
      · rw [if_pos ht] at himp
        rw [show pyContains "Population" "" = false from rfl] at himp
        simp at himp
        exact absurd himp hne
      · exact ⟨seg2, e2, ht⟩
    · exact absurd himp hne
  · intro row p hcomp hcount h
    unfold extract_properties_from_row at h
    rw [if_neg (by simp [hcomp])] at h
    obtain ⟨s0, s1, e0, e1, _, _, hdisj⟩ := extract_ind_some_shape row p h
    rcases hdisj with ⟨hc, _⟩ | ⟨_, himp⟩
    · omega
    · exact himp

theorem impacted_thing_emptiness_witness :
    (∃ seg2, get_nth_dash_from_field_alias rowC5 2 = some seg2 ∧
      drop_spaces seg2 ≠ "Total") ∧
    pC1.impacted_thing = "" :=
  ⟨impacted_thing_emptiness.1 rowC5 pC5 (by decide) (by decide) (by decide),
   impacted_thing_emptiness.2 rowC1 pC1 (by decide) (by decide) (by decide)⟩

theorem measured_property_nonempty_when_nondegenerate :
    ∀ (row : Row) (p : Props), extract_properties_from_row row = some p →
    (∀ seg0, is_composite_row row = true →
      get_nth_dash_from_field_alias row 0 = some seg0 → drop_spaces seg0 ≠ "") →
    (∀ seg1, is_composite_row row = false →
      get_nth_dash_from_field_alias row 1 = some seg1 →
      drop_spaces (score_rating_remainder seg1) ≠ "") →
    p.measured_property ≠ "" := by
  intro row p h h0 h1
  unfold extract_properties_from_row at h
  by_cases hcomp : is_composite_row row = true
  · rw [if_pos hcomp] at h
    obtain ⟨s0, s1, e0, e1, hmp, _⟩ := extract_comp_some_shape row p h
    rw [normalize_unit_fst] at hmp
    have hnd : drop_spaces (drop_spaces s0) ≠ "" := by
      rw [drop_spaces_idem]; exact h0 s0 hcomp e0
    have hds := drop_spaces_apply_alias_ne_empty _ hnd
    intro hmp0
    rw [hmp0] at hmp
    rw [← hmp] at hds
    exact hds rfl
  · rw [if_neg hcomp] at h
    rw [Bool.not_eq_true] at hcomp
    obtain ⟨s0, s1, e0, e1, hmp, _, _⟩ := extract_ind_some_shape row p h
    rw [normalize_unit_fst] at hmp
    have hrel : (ind_mu0 s1).1 = apply_datacommon_alias (score_rating_remainder s1) := by
      unfold ind_mu0 score_rating_remainder
      dsimp only
      by_cases hcond : (pyContains "Score" (apply_datacommon_alias s1) ||
          pyContains "Rating" (apply_datacommon_alias s1)) = true
      · rw [if_pos hcond, if_pos hcond]
      · rw [if_neg hcond, if_neg hcond]
    rw [hrel] at hmp
    have hds := drop_spaces_apply_alias_ne_empty _ (h1 s1 hcomp e1)
    intro hmp0
    rw [hmp0] at hmp
    rw [← hmp] at hds
    exact hds rfl

theorem measured_property_nonempty_witness : pC1.measured_property ≠ "" :=
  measured_property_nonempty_when_nondegenerate rowC1 pC1 (by decide)
    (fun seg0 hcomp _ => absurd hcomp (by decide))
    (fun seg1 _ hseg => by
      rw [show get_nth_dash_from_field_alias rowC1 1 =
        some "Expected Annual Loss Score" from by decide] at hseg
      cases hseg
      decide)

/-! ### Identifier underscore-shape lemmas -/

theorem toUpper_ne_underscore (c : Char) (h : c ≠ '_') : c.toUpper ≠ '_' := by
  intro hc
  have hc' : (if c.toNat ≥ 97 ∧ c.toNat ≤ 122 then Char.ofNat (c.toNat - 32) else c) = '_' := hc
  by_cases hr : c.toNat ≥ 97 ∧ c.toNat ≤ 122
  · rw [if_pos hr] at hc'
    obtain ⟨h1, h2⟩ := hr
    generalize hn : c.toNat = n at h1 h2 hc'
    interval_cases n <;> exact absurd hc' (by decide)
  · rw [if_neg hr] at hc'
    exact h hc'

theorem hasDoubleUnderscore_append_left (l r : List Char) (h : '_' ∉ l) :
    hasDoubleUnderscore (l ++ r) = hasDoubleUnderscore r := by
  induction l with
  | nil => rfl
  | cons c l ih =>
    have hc : c ≠ '_' := fun hcc => h (hcc ▸ List.mem_cons_self c l)
    have hl : '_' ∉ l := fun hm => h (List.mem_cons_of_mem c hm)
    have hcb : (c == '_') = false := by simp [hc]
    cases l with
    | nil =>
      cases r with
      | nil => rfl
      | cons b r' =>
        show hasDoubleUnderscore (c :: b :: r') = hasDoubleUnderscore (b :: r')
        rw [hasDoubleUnderscore, hcb]
        simp
    | cons c2 l2 =>
      show hasDoubleUnderscore (c :: c2 :: (l2 ++ r)) = hasDoubleUnderscore r
      rw [hasDoubleUnderscore, hcb]
      simp only [Bool.false_and, Bool.false_or]
      exact ih hl

theorem pyJoinC_ne_nil (sep : List Char) (x : List Char) (xs : List (List Char))
    (hx : x ≠ []) : pyJoinC sep (x :: xs) ≠ [] := by
  cases xs with
  | nil => exact hx
  | cons y ys =>
    show x ++ sep ++ pyJoinC sep (y :: ys) ≠ []
    simp [hx]

theorem joinC_underscore_shape : ∀ (xs : List (List Char)), xs ≠ [] →
    (∀ x ∈ xs, x ≠ [] ∧ '_' ∉ x) →
    (pyJoinC ['_'] xs).head? ≠ some '_' ∧
    (pyJoinC ['_'] xs).getLast? ≠ some '_' ∧
    hasDoubleUnderscore (pyJoinC ['_'] xs) = false := by
  intro xs
  induction xs with
  | nil => intro h; exact absurd rfl h
  | cons x xs ih =>
    intro _ hall
    obtain ⟨hxne, hxu⟩ := hall x (List.mem_cons_self x xs)
    cases xs with
    | nil =>
      refine ⟨?_, ?_, ?_⟩
      · show x.head? ≠ some '_'
        cases x with
        | nil => simp
        | cons c t =>
          rw [List.head?_cons]
          intro hcc
          exact hxu (Option.some.inj hcc ▸ List.mem_cons_self c t)
      · show x.getLast? ≠ some '_'
        intro hlast
        exact hxu (List.mem_of_getLast?_eq_some hlast)
      · show hasDoubleUnderscore x = false
        have hd := hasDoubleUnderscore_append_left x [] hxu
        rwa [List.append_nil] at hd
    | cons y ys =>
      have hj : pyJoinC ['_'] (x :: y :: ys) = x ++ ('_' :: pyJoinC ['_'] (y :: ys)) := by
        show x ++ ['_'] ++ pyJoinC ['_'] (y :: ys) = x ++ ('_' :: pyJoinC ['_'] (y :: ys))
        simp
      obtain ⟨ihh, ihl, ihd⟩ := ih (by simp) (fun z hz => hall z (List.mem_cons_of_mem x hz))
      have hyne : y ≠ [] := (hall y (by simp)).1
      have hjne : pyJoinC ['_'] (y :: ys) ≠ [] := pyJoinC_ne_nil _ y ys hyne
      refine ⟨?_, ?_, ?_⟩
      · rw [hj, List.head?_append]
        cases x with
        | nil => exact absurd rfl hxne
        | cons c t =>
          rw [List.head?_cons]
          show (some c).or (('_' :: pyJoinC ['_'] (y :: ys)).head?) ≠ some '_'
          rw [show (some c).or (('_' :: pyJoinC ['_'] (y :: ys)).head?) = some c from rfl]
          intro hcc
          exact hxu (Option.some.inj hcc ▸ List.mem_cons_self c t)
      · rw [hj, List.getLast?_append_of_ne_nil _ (by simp)]
        cases hjj : pyJoinC ['_'] (y :: ys) with
        | nil => exact absurd hjj hjne
        | cons h t =>
          rw [List.getLast?_cons_cons]
          rw [hjj] at ihl
          exact ihl
      · rw [hj, hasDoubleUnderscore_append_left _ _ hxu]
        cases hjj : pyJoinC ['_'] (y :: ys) with
        | nil => exact absurd hjj hjne
        | cons h t =>
          rw [hasDoubleUnderscore]
          rw [hjj] at ihh ihd
          have hh : (h == '_') = false := by
            rw [List.head?_cons] at ihh
            simp only [ne_eq, Option.some.injEq] at ihh
            simp [ihh]
          rw [hh]
          simpa using ihd

theorem capitalize_first_eq_some (s : String) (h : s ≠ "") :
    capitalize_first s = some (capitalizeF s) := by
  unfold capitalize_first capitalizeF
  cases hs : s.data with
  | nil =>
    exfalso
    apply h
    cases s with
    | mk d => cases hs; rfl
  | cons c rest => rfl

theorem capitalizeF_data (s : String) (c : Char) (rest : List Char)
    (h : s.data = c :: rest) : (capitalizeF s).data = c.toUpper :: rest := by
  unfold capitalizeF
  rw [h]

theorem mapM_capitalize (l : List String) (h : ∀ x ∈ l, x ≠ "") :
    l.mapM capitalize_first = some (l.map capitalizeF) := by
  induction l with
  | nil => rfl
  | cons x xs ih =>
    rw [List.mapM_cons, capitalize_first_eq_some x (h x (List.mem_cons_self x xs)),
      ih (fun y hy => h y (List.mem_cons_of_mem x hy))]
    rfl

theorem capitalizeF_shape (s : String) (hne : s ≠ "") (hu : noUnderscore s) :
    (capitalizeF s).data ≠ [] ∧ '_' ∉ (capitalizeF s).data := by
  cases hs : s.data with
  | nil =>
    exfalso; apply hne
    cases s with
    | mk d => cases hs; rfl
  | cons c rest =>
    rw [capitalizeF_data s c rest hs]
    unfold noUnderscore at hu
    rw [hs] at hu
    constructor
    · simp
    · intro hm
      rcases List.mem_cons.mp hm with hm1 | hm2
      · exact toUpper_ne_underscore c
          (fun hcc => hu (hcc ▸ List.mem_cons_self c rest)) hm1.symm
      · exact hu (List.mem_cons_of_mem c hm2)

theorem dcid_no_underscore_artifacts :
    (∀ (p : Props) (d : String),
      noUnderscore p.measurement_qualifier → noUnderscore p.measured_property →
      noUnderscore p.hazard_type → noUnderscore p.impacted_thing →
      (format_ind_hazard_field_properties_to_schema p).map Prod.snd = some d →
      d.data.head? ≠ some '_' ∧ d.data.getLast? ≠ some '_' ∧
        hasDoubleUnderscore d.data = false) ∧
    (∀ (p : Props) (d : String),
      noUnderscore p.measured_property → p.measured_property ≠ "" →
      (format_composite_field_properties_to_schema p).map Prod.snd = some d →
      d.data.head? ≠ some '_' ∧ d.data.getLast? ≠ some '_' ∧
        hasDoubleUnderscore d.data = false) := by
  constructor
  · intro p d hq hm hh hi hfmt
    unfold format_ind_hazard_field_properties_to_schema at hfmt
    dsimp only at hfmt
    have hne : ∀ x ∈ List.filter (fun element => element ≠ "")
        [p.measurement_qualifier, p.measured_property, "NaturalHazardImpact",
         p.hazard_type, p.impacted_thing], x ≠ "" := by
      intro x hx
      have hfx := (List.mem_filter.mp hx).2
      simpa using hfx
    rw [mapM_capitalize _ hne] at hfmt
    simp only [Option.bind_eq_bind, Option.some_bind, Option.pure_def,
      Option.map_some'] at hfmt
    have hd := (Option.some.inj hfmt).symm
    subst hd
    have hdata : (pyJoin "_" (List.map capitalizeF (List.filter (fun element => element ≠ "")
        [p.measurement_qualifier, p.measured_property, "NaturalHazardImpact",
         p.hazard_type, p.impacted_thing]))).data =
        pyJoinC ['_'] ((List.map capitalizeF (List.filter (fun element => element ≠ "")
        [p.measurement_qualifier, p.measured_property, "NaturalHazardImpact",
         p.hazard_type, p.impacted_thing])).map String.data) := rfl
    rw [hdata]
    apply joinC_underscore_shape
    · have hmem : ("NaturalHazardImpact" : String) ∈ List.filter (fun element => element ≠ "")
          [p.measurement_qualifier, p.measured_property, "NaturalHazardImpact",
           p.hazard_type, p.impacted_thing] := by
        apply List.mem_filter.mpr
        refine ⟨by simp, by simp⟩
      have hmem2 := List.mem_map_of_mem String.data
        (List.mem_map_of_mem capitalizeF hmem)
      exact List.ne_nil_of_mem hmem2
    · intro x hx
      obtain ⟨y, hy, hyx⟩ := List.mem_map.mp hx
      obtain ⟨z, hz, hzy⟩ := List.mem_map.mp hy
      have hzne : z ≠ "" := hne z hz
      have hzdl := (List.mem_filter.mp hz).1
      have hzu : noUnderscore z := by
        simp only [List.mem_cons, List.not_mem_nil, or_false] at hzdl
        rcases hzdl with rfl | rfl | rfl | rfl | rfl
        · exact hq
        · exact hm
        · unfold noUnderscore; decide
        · exact hh
        · exact hi
      rw [← hyx, ← hzy]
      exact capitalizeF_shape z hzne hzu
  · intro p d hm hne hfmt
    unfold format_composite_field_properties_to_schema at hfmt
    dsimp only at hfmt
    rw [capitalize_first_eq_some _ hne] at hfmt
    simp only [Option.bind_eq_bind, Option.some_bind, Option.pure_def,
      Option.map_some'] at hfmt
    have hd := (Option.some.inj hfmt).symm
    subst hd
    have hshape : ∀ m : String, m.data ≠ [] → '_' ∉ m.data →
        (m ++ "_NaturalHazardImpact").data.head? ≠ some '_' ∧
        (m ++ "_NaturalHazardImpact").data.getLast? ≠ some '_' ∧
        hasDoubleUnderscore (m ++ "_NaturalHazardImpact").data = false := by
      intro m hmne hmu
      have hdata : (m ++ "_NaturalHazardImpact").data =
          pyJoinC ['_'] [m.data, ("NaturalHazardImpact" : String).data] := by
        show _ = m.data ++ ['_'] ++ ("NaturalHazardImpact" : String).data
        rw [String.data_append,
          show ("_NaturalHazardImpact" : String).data =
            ['_'] ++ ("NaturalHazardImpact" : String).data from rfl]
        simp [List.append_assoc]
      rw [hdata]
      apply joinC_underscore_shape
      · simp
      · intro x hx
        simp only [List.mem_cons, List.not_mem_nil, or_false] at hx
        rcases hx with rfl | rfl
        · exact ⟨hmne, hmu⟩
        · exact ⟨by decide, by decide⟩
    obtain ⟨hcne, hcu⟩ := capitalizeF_shape p.measured_property hne hm
    by_cases heL : p.measured_property = "expectedLoss"
    · rw [if_pos heL]
      have hdata : ("Annual_" ++ capitalizeF p.measured_property ++ "_NaturalHazardImpact").data =
          pyJoinC ['_'] [("Annual" : String).data, (capitalizeF p.measured_property).data,
            ("NaturalHazardImpact" : String).data] := by
        show _ = ("Annual" : String).data ++ ['_'] ++
          ((capitalizeF p.measured_property).data ++ ['_'] ++
            ("NaturalHazardImpact" : String).data)
        rw [String.data_append, String.data_append,
          show ("Annual_" : String).data = ("Annual" : String).data ++ ['_'] from rfl,
          show ("_NaturalHazardImpact" : String).data =
            ['_'] ++ ("NaturalHazardImpact" : String).data from rfl]
        simp [List.append_assoc]
      rw [hdata]
      apply joinC_underscore_shape
      · simp
      · intro x hx
        simp only [List.mem_cons, List.not_mem_nil, or_false] at hx
        rcases hx with rfl | rfl | rfl
        · exact ⟨by decide, by decide⟩
        · exact ⟨hcne, hcu⟩
        · exact ⟨by decide, by decide⟩
    · rw [if_neg heL]
      exact hshape (capitalizeF p.measured_property) hcne hcu

theorem dcid_no_underscore_witness :
    (("Annual_ExpectedLoss_NaturalHazardImpact_AvalancheEvent" : String).data.head? ≠ some '_' ∧
     ("Annual_ExpectedLoss_NaturalHazardImpact_AvalancheEvent" : String).data.getLast? ≠ some '_' ∧
     hasDoubleUnderscore ("Annual_ExpectedLoss_NaturalHazardImpact_AvalancheEvent" : String).data = false) ∧
    (("FemaNaturalHazardRiskIndex_NaturalHazardImpact" : String).data.head? ≠ some '_' ∧
     ("FemaNaturalHazardRiskIndex_NaturalHazardImpact" : String).data.getLast? ≠ some '_' ∧
     hasDoubleUnderscore ("FemaNaturalHazardRiskIndex_NaturalHazardImpact" : String).data = false) :=
  ⟨dcid_no_underscore_artifacts.1 pC1 _
      (by unfold noUnderscore; decide) (by unfold noUnderscore; decide)
      (by unfold noUnderscore; decide) (by unfold noUnderscore; decide) (by decide),
   dcid_no_underscore_artifacts.2 pCompRisk _
      (by unfold noUnderscore; decide) (by decide) (by decide)⟩

/-! ### Display-name refinement lemmas -/

theorem flatMap_code_eq_spec (l : List Char) (h : ∀ c ∈ l, pyIsSpace c = false) :
    (l.flatMap (fun char => if char.isUpper then [' ', char]
      else if pyIsSpace char then [] else [char])) = l.flatMap spec_capital_block := by
  induction l with
  | nil => rfl
  | cons c rest ih =>
    rw [List.flatMap_cons, List.flatMap_cons,
      ih (fun d hd => h d (List.mem_cons_of_mem c hd))]
    congr 1
    have hc := h c (List.mem_cons_self c rest)
    unfold spec_capital_block
    by_cases hup : c.isUpper = true
    · rw [if_pos hup, if_pos hup]
    · rw [if_neg hup, if_neg hup, if_neg (by simp [hc])]

theorem flatMap_spec_getLast? (l : List Char) :
    (l.flatMap spec_capital_block).getLast? = l.getLast? := by
  induction l using List.reverseRecOn with
  | nil => rfl
  | append_singleton l d ih =>
    rw [List.flatMap_append, List.getLast?_concat]
    have hblock : ([d].flatMap spec_capital_block) = spec_capital_block d := by
      simp
    have hbne : spec_capital_block d ≠ [] := by
      unfold spec_capital_block
      split <;> simp
    rw [hblock, List.getLast?_append_of_ne_nil _ hbne]
    unfold spec_capital_block
    split <;> rfl

theorem data_mk (l : List Char) : (String.mk l).data = l := rfl

theorem stripRight_of_last_not_space (m : List Char) (x : Char)
    (h1 : m.getLast? = some x) (h2 : pyIsSpace x = false) :
    (m.reverse.dropWhile pyIsSpace).reverse = m := by
  have hrev : m.reverse.head? = some x := by rw [List.head?_reverse]; exact h1
  cases hm : m.reverse with
  | nil => rw [hm] at hrev; exact Option.noConfusion hrev
  | cons a t =>
    rw [hm] at hrev
    rw [List.head?_cons] at hrev
    have hps : pyIsSpace a = false := (Option.some.inj hrev) ▸ h2
    rw [List.dropWhile_cons, hps]
    simp only [Bool.false_eq_true, if_false]
    rw [← hm, List.reverse_reverse]

theorem add_spaces_eq_spec (s : String) (h : ∀ c ∈ s.data, pyIsSpace c = false) :
    add_spaces_before_capital_letters s = spec_space_internal_capitals s := by
  unfold add_spaces_before_capital_letters spec_space_internal_capitals pyStrip pyStripC
  rw [data_mk]
  congr 1
  cases hs : s.data with
  | nil => rfl
  | cons c rest =>
    rw [hs] at h
    have hc : pyIsSpace c = false := h c (List.mem_cons_self c rest)
    have hrest : ∀ d ∈ rest, pyIsSpace d = false :=
      fun d hd => h d (List.mem_cons_of_mem c hd)
    rw [List.flatMap_cons]
    rw [flatMap_code_eq_spec rest hrest]
    rw [spec_space_capitals_chars]
    have hdrop : List.dropWhile pyIsSpace
        ((fun char => if char.isUpper then [' ', char]
          else if pyIsSpace char then [] else [char]) c ++ rest.flatMap spec_capital_block) =
        c :: rest.flatMap spec_capital_block := by
      by_cases hup : c.isUpper = true
      · rw [show ((fun char => if char.isUpper then [' ', char]
            else if pyIsSpace char then [] else [char]) c) = if c.isUpper = true then [' ', c]
              else if pyIsSpace c = true then [] else [c] from rfl]
        rw [if_pos hup]
        rw [show ([' ', c] ++ rest.flatMap spec_capital_block) =
          ' ' :: c :: rest.flatMap spec_capital_block from rfl]
        rw [List.dropWhile_cons]
        rw [show pyIsSpace ' ' = true from rfl]
        simp only [if_true]
        rw [List.dropWhile_cons, hc]
        simp
      · rw [show ((fun char => if char.isUpper then [' ', char]
            else if pyIsSpace char then [] else [char]) c) = if c.isUpper = true then [' ', c]
              else if pyIsSpace c = true then [] else [c] from rfl]
        rw [if_neg hup, if_neg (by simp [hc])]
        rw [show ([c] ++ rest.flatMap spec_capital_block) =
          c :: rest.flatMap spec_capital_block from rfl]
        rw [List.dropWhile_cons, hc]
        simp
    rw [hdrop]
    have hlast : ∃ x, (c :: rest.flatMap spec_capital_block).getLast? = some x ∧
        pyIsSpace x = false := by
      cases hr : rest.flatMap spec_capital_block with
      | nil => exact ⟨c, by simp, hc⟩
      | cons r0 rs =>
        have hR := flatMap_spec_getLast? rest
        rw [hr] at hR
        cases hrl : rest.getLast? with
        | none =>
          rw [hrl] at hR
          exact Option.noConfusion hR
        | some y =>
          refine ⟨y, ?_, hrest y (List.mem_of_getLast?_eq_some hrl)⟩
          rw [List.getLast?_cons_cons, hR, hrl]
    obtain ⟨x, hx1, hx2⟩ := hlast
    exact stripRight_of_last_not_space _ x hx1 hx2

theorem pySplitAux_ne_nil (sep : List Char) (fuel : Nat) (l : List Char) :
    pySplitAux sep fuel l ≠ [] := by
  cases fuel with
  | zero => cases l <;> simp [pySplitAux]
  | succ f =>
    cases l with
    | nil => simp [pySplitAux]
    | cons c rest =>
      rw [pySplitAux]
      split
      · simp
      · split <;> simp

theorem isPrefixOf_single (s c : Char) (rest : List Char) :
    ([s].isPrefixOf (c :: rest)) = (s == c) := by
  simp [List.isPrefixOf]

theorem pySplitAux_single_cons (s : Char) (f : Nat) (c : Char) (rest : List Char) :
    pySplitAux [s] (f + 1) (c :: rest) =
      if s = c then [] :: pySplitAux [s] f rest
      else match pySplitAux [s] f rest with
        | [] => [[c]]
        | g :: gs => (c :: g) :: gs := by
  rw [pySplitAux, isPrefixOf_single]
  by_cases hsc : s = c
  · rw [if_pos (by simp [hsc]), if_pos hsc]
    rw [show ([s].length - 1) = 0 from rfl, List.drop_zero]
  · rw [if_neg (by simp [hsc]), if_neg hsc]

theorem pyJoinC_pySplitAux_single (s : Char) :
    ∀ (fuel : Nat) (l : List Char), l.length ≤ fuel →
      pyJoinC [s] (pySplitAux [s] fuel l) = l := by
  intro fuel
  induction fuel with
  | zero =>
    intro l hl
    have hl0 : l = [] := List.eq_nil_of_length_eq_zero (Nat.le_zero.mp hl)
    subst hl0
    rfl
  | succ f ih =>
    intro l hl
    cases l with
    | nil => rfl
    | cons c rest =>
      have hrl : rest.length ≤ f := by
        simp only [List.length_cons] at hl; omega
      rw [pySplitAux_single_cons]
      by_cases hsc : s = c
      · rw [if_pos hsc]
        cases hS : pySplitAux [s] f rest with
        | nil => exact absurd hS (pySplitAux_ne_nil _ _ _)
        | cons g gs =>
          rw [show pyJoinC [s] ([] :: g :: gs) = [] ++ [s] ++ pyJoinC [s] (g :: gs) from rfl]
          rw [← hS, ih rest hrl]
          simp [hsc]
      · rw [if_neg hsc]
        cases hS : pySplitAux [s] f rest with
        | nil => exact absurd hS (pySplitAux_ne_nil _ _ _)
        | cons g gs =>
          have hjoin := ih rest hrl
          rw [hS] at hjoin
          cases gs with
          | nil =>
            rw [show pyJoinC [s] [c :: g] = c :: g from rfl]
            rw [show pyJoinC [s] [g] = g from rfl] at hjoin
            rw [hjoin]
          | cons g2 gs2 =>
            rw [show pyJoinC [s] ((c :: g) :: g2 :: gs2) =
              (c :: g) ++ [s] ++ pyJoinC [s] (g2 :: gs2) from rfl]
            rw [show pyJoinC [s] (g :: g2 :: gs2) =
              g ++ [s] ++ pyJoinC [s] (g2 :: gs2) from rfl] at hjoin
            rw [← hjoin]
            simp

theorem pySplitAux_fuel_irrel (s : Char) :
    ∀ (f1 f2 : Nat) (l : List Char), l.length ≤ f1 → l.length ≤ f2 →
      pySplitAux [s] f1 l = pySplitAux [s] f2 l := by
  intro f1
  induction f1 with
  | zero =>
    intro f2 l h1 h2
    have hl0 : l = [] := List.eq_nil_of_length_eq_zero (Nat.le_zero.mp h1)
    subst hl0
    cases f2 <;> rfl
  | succ f ih =>
    intro f2 l h1 h2
    cases l with
    | nil => cases f2 <;> rfl
    | cons c rest =>
      cases f2 with
      | zero => simp at h2
      | succ f2' =>
        have hr1 : rest.length ≤ f := by simp only [List.length_cons] at h1; omega
        have hr2 : rest.length ≤ f2' := by simp only [List.length_cons] at h2; omega
        rw [pySplitAux_single_cons, pySplitAux_single_cons, ih f2' rest hr1 hr2]

theorem pySplitAux_append_sep (s : Char) :
    ∀ (a : List Char) (fuel : Nat) (b : List Char),
      a.length + 1 + b.length ≤ fuel →
      pySplitAux [s] fuel (a ++ s :: b) =
        pySplitAux [s] a.length a ++ pySplitAux [s] b.length b := by
  intro a
  induction a with
  | nil =>
    intro fuel b hl
    cases fuel with
    | zero => simp at hl
    | succ f =>
      rw [List.nil_append, pySplitAux_single_cons, if_pos rfl]
      rw [pySplitAux_fuel_irrel s f b.length b
        (by simp only [List.length_nil] at hl; omega) (Nat.le_refl _)]
      rfl
  | cons c a' ih =>
    intro fuel b hl
    cases fuel with
    | zero => simp at hl
    | succ f =>
      have hl' : a'.length + 1 + b.length ≤ f := by
        simp only [List.length_cons] at hl; omega
      rw [show (c :: a') ++ s :: b = c :: (a' ++ s :: b) from rfl]
      rw [pySplitAux_single_cons, ih f b hl']
      rw [show (c :: a').length = a'.length + 1 from rfl]
      rw [pySplitAux_single_cons]
      by_cases hsc : s = c
      · rw [if_pos hsc, if_pos hsc]
        rfl
      · rw [if_neg hsc, if_neg hsc]
        cases hA : pySplitAux [s] a'.length a' with
        | nil => exact absurd hA (pySplitAux_ne_nil _ _ _)
        | cons g gs => rfl

theorem pySplitAux_no_sep (s : Char) :
    ∀ (fuel : Nat) (l : List Char), l.length ≤ fuel → s ∉ l →
      pySplitAux [s] fuel l = [l] := by
  intro fuel
  induction fuel with
  | zero =>
    intro l h1 _
    have hl0 : l = [] := List.eq_nil_of_length_eq_zero (Nat.le_zero.mp h1)
    subst hl0
    rfl
  | succ f ih =>
    intro l h1 hmem
    cases l with
    | nil => rfl
    | cons c rest =>
      have hrl : rest.length ≤ f := by simp only [List.length_cons] at h1; omega
      have hsc : s ≠ c := fun hh => hmem (hh ▸ List.mem_cons_self c rest)
      rw [pySplitAux_single_cons, if_neg hsc,
        ih rest hrl (fun hm => hmem (List.mem_cons_of_mem c hm))]

theorem map_data_mk (Y : List (List Char)) :
    (Y.map String.mk).map String.data = Y := by
  rw [List.map_map]
  have hid : (String.data ∘ String.mk) = id := by
    funext l
    rfl
  rw [hid, List.map_id]

theorem hazard_tail_eq_spec (ht : String)
    (hws : ∀ c ∈ ht.data, pyIsSpace c = false)
    (hsuf : "Event".data <:+ ht.data) :
    pyJoin " " ((pySplit " " (add_spaces_before_capital_letters ht)).dropLast) =
      spec_space_internal_capitals (remove_event_suffix ht) := by
  obtain ⟨pre, hpre⟩ := hsuf
  rw [add_spaces_eq_spec ht hws]
  have hsufb : ("Event".data.isSuffixOf ht.data) = true := by
    rw [List.isSuffixOf_iff_suffix]
    exact ⟨pre, hpre⟩
  unfold remove_event_suffix
  rw [if_pos hsufb]
  have hlen : ht.data.length - 5 = pre.length := by
    rw [← hpre, List.length_append]
    simp
  rw [hlen, ← hpre, List.take_left]
  cases ht with
  | mk d =>
  rw [data_mk] at hpre
  subst hpre
  cases pre with
  | nil => decide
  | cons c pre' =>
    have hspec : spec_space_internal_capitals (String.mk ((c :: pre') ++ "Event".data)) =
        String.mk (spec_space_capitals_chars (c :: pre') ++ (' ' :: "Event".data)) := by
      unfold spec_space_internal_capitals
      rw [data_mk]
      congr 1
      show c :: (pre' ++ "Event".data).flatMap spec_capital_block = _
      rw [List.flatMap_append]
      rw [show "Event".data.flatMap spec_capital_block = ' ' :: "Event".data from rfl]
      show c :: (pre'.flatMap spec_capital_block ++ (' ' :: "Event".data)) =
        spec_space_capitals_chars (c :: pre') ++ (' ' :: "Event".data)
      rw [show spec_space_capitals_chars (c :: pre') =
        c :: pre'.flatMap spec_capital_block from rfl]
      rfl
    rw [hspec]
    unfold pySplit pySplitC pyJoin
    simp only [data_mk]
    rw [pySplitAux_append_sep ' ' (spec_space_capitals_chars (c :: pre')) _ "Event".data
      (by simp only [List.length_append, List.length_cons, List.length_nil]; omega)]
    rw [pySplitAux_no_sep ' ' _ "Event".data (Nat.le_refl _) (by decide)]
    rw [List.map_append]
    simp only [List.map_cons, List.map_nil]
    rw [List.dropLast_concat]
    rw [map_data_mk]
    rw [pyJoinC_pySplitAux_single ' ' _ _ (Nat.le_refl _)]
    rfl

theorem display_name_refines_spec :
    ∀ (p : Props) (ic : Bool),
      (∀ c ∈ p.measured_property.data, pyIsSpace c = false) →
      (∀ c ∈ p.hazard_type.data, pyIsSpace c = false) →
      "Event".data <:+ p.hazard_type.data →
      format_human_readable_name_from_properties p ic = spec_display_name p ic := by
  intro p ic hmp hht hsuf
  unfold format_human_readable_name_from_properties spec_display_name
  dsimp only
  rw [hazard_tail_eq_spec p.hazard_type hht hsuf,
      add_spaces_eq_spec p.measured_property hmp]
  cases ic <;> simp

theorem display_name_refines_spec_witness :
    format_human_readable_name_from_properties pC1 false = spec_display_name pC1 false :=
  display_name_refines_spec pC1 false (by decide) (by decide) (by decide)

/-- C9 counterexample: the code's capital-spacing helper also deletes
whitespace characters, which the claimed description (insert a space before
every internal capital, drop the first word, strip the "Event" suffix) does
not; on an extracted record whose hazard token carries a tab the two names
differ ("... : Ab" versus "... : A\tb"). -/
theorem display_name_whitespace_counterexample :
    should_skip_component rowTab = false ∧
    extract_properties_from_row rowTab = some pTab ∧
    format_human_readable_name_from_properties pTab false ≠
      spec_display_name pTab false := by decide
